import Mathlib

/-!
Verification of `include/ignition/math/Filter.hh` (ignition math filters).

The C++ code computes with `double` and libm's `exp`/`tan`/`M_PI`; the
claims are stated in exact real arithmetic, so each filter is embedded as a
structure over `ℝ` and every member function is a pure state transformer
translated line by line from the source.
-/

namespace IgnMath

/-- State of `OnePole<double>` together with the inherited `Filter<double>`
member: `y0` is the retained output declared in the base class `Filter`,
and `a0` (input gain) and `b1` (feedback gain) are the `OnePole` members,
both of which carry the in-class initializer `= 0`. -/
structure OnePole where
  y0 : ℝ
  a0 : ℝ
  b1 : ℝ

/-- `Filter::SetValue(_val) { y0 = _val; }`, inherited unchanged by
`OnePole`: only the retained output is written. -/
def OnePole.setValue (s : OnePole) (v : ℝ) : OnePole :=
  { s with y0 := v }

/-- `Filter::GetValue() { return y0; }`. -/
def OnePole.getValue (s : OnePole) : ℝ :=
  s.y0

/-- `OnePole::SetFc(_fc, _fs)`:
`b1 = exp(-2.0 * M_PI * _fc / _fs); a0 = 1.0 - b1;`. -/
noncomputable def OnePole.setFc (s : OnePole) (fc fs : ℝ) : OnePole :=
  { s with
    b1 := Real.exp (-2 * Real.pi * fc / fs),
    a0 := 1 - Real.exp (-2 * Real.pi * fc / fs) }

/-- `OnePole::Process(_x) { y0 = a0 * _x + b1 * y0; return y0; }`;
the returned reference is `getValue` of the post-state. -/
def OnePole.process (s : OnePole) (x : ℝ) : OnePole :=
  { s with y0 := s.a0 * x + s.b1 * s.y0 }

/-- A scalar one-pole filter whose retained state is initialized to 0 and
whose gains keep their in-class zero initializers. -/
def OnePole.zeroState : OnePole :=
  ⟨0, 0, 0⟩

/-- State of `BiQuad<double>`: the inherited retained output `y0`, the six
coefficients `a0,a1,a2,b0,b1,b2` (the source's in-class initializer `= 0`
syntactically applies to `b2` only) and the history members `x1,x2,y1,y2`. -/
structure BiQuad where
  y0 : ℝ
  a0 : ℝ
  a1 : ℝ
  a2 : ℝ
  b0 : ℝ
  b1 : ℝ
  b2 : ℝ
  x1 : ℝ
  x2 : ℝ
  y1 : ℝ
  y2 : ℝ

/-- The local `double k = tan(M_PI * _fc / _fs)` of `BiQuad::SetFc`. -/
noncomputable def biquadK (fc fs : ℝ) : ℝ :=
  Real.tan (Real.pi * fc / fs)

/-- The local `double kQuadDenom = k * k + k / _q + 1.0` of `BiQuad::SetFc`. -/
noncomputable def biquadDenom (fc fs q : ℝ) : ℝ :=
  biquadK fc fs * biquadK fc fs + biquadK fc fs / q + 1

/-- `BiQuad::SetFc(_fc, _fs, _q)`: the bilinear-transform coefficient
assignments, with `a1 = 2 * a0` and `a2 = a0` referring to the freshly
written `a0 = k * k / kQuadDenom`. -/
noncomputable def BiQuad.setFc3 (s : BiQuad) (fc fs q : ℝ) : BiQuad :=
  { s with
    a0 := biquadK fc fs * biquadK fc fs / biquadDenom fc fs q,
    a1 := 2 * (biquadK fc fs * biquadK fc fs / biquadDenom fc fs q),
    a2 := biquadK fc fs * biquadK fc fs / biquadDenom fc fs q,
    b0 := 1,
    b1 := 2 * (biquadK fc fs * biquadK fc fs - 1) / biquadDenom fc fs q,
    b2 := (biquadK fc fs * biquadK fc fs - biquadK fc fs / q + 1) /
      biquadDenom fc fs q }

/-- `BiQuad::SetFc(_fc, _fs) { SetFc(_fc, _fs, 0.5); }`. -/
noncomputable def BiQuad.setFc2 (s : BiQuad) (fc fs : ℝ) : BiQuad :=
  s.setFc3 fc fs 0.5

/-- `BiQuad::SetValue(_val) { y0 = y1 = y2 = x1 = x2 = _val; }`. -/
def BiQuad.setValue (s : BiQuad) (v : ℝ) : BiQuad :=
  { s with y0 := v, y1 := v, y2 := v, x1 := v, x2 := v }

/-- `Filter::GetValue() { return y0; }`, inherited by `BiQuad`. -/
def BiQuad.getValue (s : BiQuad) : ℝ :=
  s.y0

/-- `BiQuad::Process(_x)`: the direct-form-I output followed by the history
shift `x2 = x1; x1 = _x; y2 = y1; y1 = y0;`; the returned reference is
`getValue` of the post-state. -/
def BiQuad.process (s : BiQuad) (x : ℝ) : BiQuad :=
  { s with
    y0 := s.a0 * x + s.a1 * s.x1 + s.a2 * s.x2 - s.b1 * s.y1 - s.b2 * s.y2,
    x2 := s.x1,
    x1 := x,
    y2 := s.y1,
    y1 := s.a0 * x + s.a1 * s.x1 + s.a2 * s.x2 - s.b1 * s.y1 - s.b2 * s.y2 }

/-- A bare-constructed `BiQuad()` with every member at the zero default the
spec assigns to this state.  (In the source only `b2` carries the in-class
initializer `= 0`; the remaining scalar members are value-indeterminate
after bare construction, and the spec describes all coefficients as being
at their zero default, which this models.) -/
def BiQuad.bare : BiQuad :=
  ⟨0, 0, 0, 0, 0, 0, 0, 0, 0, 0, 0⟩

/-- `BiQuad(_fc, _fs)`: bare construction followed by the constructor body
`this->SetFc(_fc, _fs);`. -/
noncomputable def BiQuad.mk2 (fc fs : ℝ) : BiQuad :=
  BiQuad.bare.setFc2 fc fs

/-- Modelled from the spec: the three-argument constructor
`BiQuad(cutoffHz, sampleRateHz, Q)` listed in the spec's interface section
is absent from `src/include/ignition/math/Filter.hh`; following the spec's
description of construction with `(cutoff, sampleRate[, Q])`, it is bare
construction followed by `SetFc(fc, fs, Q)`. -/
noncomputable def BiQuad.mk3 (fc fs q : ℝ) : BiQuad :=
  BiQuad.bare.setFc3 fc fs q

/-- The six-coefficient part of a `BiQuad` state. -/
def BiQuad.coeffs (s : BiQuad) : ℝ × ℝ × ℝ × ℝ × ℝ × ℝ :=
  (s.a0, s.a1, s.a2, s.b0, s.b1, s.b2)

/-- `Quaterniond`: the external orientation collaborator, four real
components `w, x, y, z`. -/
structure Quaterniond where
  w : ℝ
  x : ℝ
  y : ℝ
  z : ℝ

/-- Squared norm of a quaternion. -/
def Quaterniond.normSq (a : Quaterniond) : ℝ :=
  a.w ^ 2 + a.x ^ 2 + a.y ^ 2 + a.z ^ 2

/-- A unit-norm orientation: squared norm 1. -/
def Quaterniond.IsUnit (a : Quaterniond) : Prop :=
  a.normSq = 1

/-- State of `OnePoleQuaternion`: the retained output `y0` inherited from
`Filter<Quaterniond>` and the `OnePole` gains `a0`, `b1`. -/
structure OnePoleQuaternion where
  y0 : Quaterniond
  a0 : ℝ
  b1 : ℝ

/-- `OnePoleQuaternion()`: bare `OnePole` construction (gains at their
zero in-class initializers) followed by the constructor body
`SetValue(Quaterniond(1, 0, 0, 0))`. -/
def OnePoleQuaternion.mk0 : OnePoleQuaternion :=
  ⟨⟨1, 0, 0, 0⟩, 0, 0⟩

/-- `OnePoleQuaternion::Process(_x) { y0 = Quaterniond::Slerp(a0, y0, _x);
return y0; }`, with the external collaborator `Quaterniond::Slerp` passed
as the parameter `slerp`; the returned reference is the post-state
`y0`. -/
def OnePoleQuaternion.process
    (slerp : ℝ → Quaterniond → Quaterniond → Quaterniond)
    (s : OnePoleQuaternion) (x : Quaterniond) : OnePoleQuaternion :=
  { s with y0 := slerp s.a0 s.y0 x }

/-- The `OnePole` of the step-response check: state initialized to 0, then
`SetFc(10, 1000)`. -/
noncomputable def stepFilter : OnePole :=
  OnePole.zeroState.setFc 10 1000

/-- The filter states along the constant input `1`: `stepState n` is
`stepFilter` after `n` calls of `Process(1)`. -/
noncomputable def stepState : ℕ → OnePole
  | 0 => stepFilter
  | n + 1 => (stepState n).process 1

/-- The retained output of `stepFilter` after `n` calls of
`Process(1)`. -/
noncomputable def stepSeq (n : ℕ) : ℝ :=
  (stepState n).y0

end IgnMath

namespace IgnMath

/-- C1: for every cutoff `fc`, sample rate `fs ≠ 0` and Q factor `q ≠ 0`,
after `BiQuad::SetFc(fc, fs, q)` the coefficients equal the
bilinear-transform formulas: with `k = tan(π*fc/fs)` and
`denom = k^2 + k/q + 1`, `a0 = k^2/denom`, `a1 = 2*a0`, `a2 = a0`,
`b0 = 1`, `b1 = 2*(k^2-1)/denom` and `b2 = (k^2 - k/q + 1)/denom`. -/
theorem biquad_setFc_formulas (s : BiQuad) (fc fs q k denom : ℝ)
    (hfs : fs ≠ 0) (hq : q ≠ 0)
    (hk : k = Real.tan (Real.pi * fc / fs))
    (hd : denom = k ^ 2 + k / q + 1) :
    (s.setFc3 fc fs q).a0 = k ^ 2 / denom ∧
    (s.setFc3 fc fs q).a1 = 2 * (s.setFc3 fc fs q).a0 ∧
    (s.setFc3 fc fs q).a2 = (s.setFc3 fc fs q).a0 ∧
    (s.setFc3 fc fs q).b0 = 1 ∧
    (s.setFc3 fc fs q).b1 = 2 * (k ^ 2 - 1) / denom ∧
    (s.setFc3 fc fs q).b2 = (k ^ 2 - k / q + 1) / denom := by
  subst hk hd
  refine ⟨?_, rfl, rfl, rfl, ?_, ?_⟩ <;>
    simp only [BiQuad.setFc3, biquadK, biquadDenom] <;> ring_nf

/-- Witness for C1 at `fc = 10`, `fs = 1000`, `q = 2`. -/
theorem biquad_setFc_formulas_witness :
    (1000 : ℝ) ≠ 0 ∧ (2 : ℝ) ≠ 0 ∧
    (BiQuad.bare.setFc3 10 1000 2).b0 = 1 ∧
    (BiQuad.bare.setFc3 10 1000 2).a2 = (BiQuad.bare.setFc3 10 1000 2).a0 :=
  ⟨by norm_num, by norm_num,
    (biquad_setFc_formulas BiQuad.bare 10 1000 2
      (Real.tan (Real.pi * 10 / 1000))
      (Real.tan (Real.pi * 10 / 1000) ^ 2 +
        Real.tan (Real.pi * 10 / 1000) / 2 + 1)
      (by norm_num) (by norm_num) rfl rfl).2.2.2.1,
    (biquad_setFc_formulas BiQuad.bare 10 1000 2
      (Real.tan (Real.pi * 10 / 1000))
      (Real.tan (Real.pi * 10 / 1000) ^ 2 +
        Real.tan (Real.pi * 10 / 1000) / 2 + 1)
      (by norm_num) (by norm_num) rfl rfl).2.2.1⟩

/-- C2: for every cutoff `fc` and sample rate `fs ≠ 0`, after
`OnePole::SetFc(fc, fs)` the feedback gain `b1` equals `exp(-2π*fc/fs)`,
the input gain `a0` equals `1 - b1`, and therefore `a0 + b1 = 1`
(unity DC gain). -/
theorem onePole_setFc_formulas (s : OnePole) (fc fs : ℝ) (hfs : fs ≠ 0) :
    (s.setFc fc fs).b1 = Real.exp (-2 * Real.pi * fc / fs) ∧
    (s.setFc fc fs).a0 = 1 - (s.setFc fc fs).b1 ∧
    (s.setFc fc fs).a0 + (s.setFc fc fs).b1 = 1 := by
  refine ⟨rfl, rfl, ?_⟩
  simp only [OnePole.setFc]
  ring

/-- Witness for C2 at `fc = 10`, `fs = 1000`. -/
theorem onePole_setFc_formulas_witness :
    (1000 : ℝ) ≠ 0 ∧
    (OnePole.zeroState.setFc 10 1000).a0 +
      (OnePole.zeroState.setFc 10 1000).b1 = 1 :=
  ⟨by norm_num,
    (onePole_setFc_formulas OnePole.zeroState 10 1000 (by norm_num)).2.2⟩

/-- C3: for every input `x`, `BiQuad::Process(x)` computes
`out = a0*x + a1*x1 + a2*x2 - b1*y1 - b2*y2` from the pre-call history,
shifts the history in the order `x2 ← x1`, `x1 ← x`, `y2 ← y1`,
`y1 ← out`, and both returns the new output and retains it as
`GetValue()`. -/
theorem biquad_process_spec (s : BiQuad) (x : ℝ) :
    (s.process x).y0 =
      s.a0 * x + s.a1 * s.x1 + s.a2 * s.x2 - s.b1 * s.y1 - s.b2 * s.y2 ∧
    (s.process x).x2 = s.x1 ∧
    (s.process x).x1 = x ∧
    (s.process x).y2 = s.y1 ∧
    (s.process x).y1 = (s.process x).y0 ∧
    (s.process x).getValue = (s.process x).y0 :=
  ⟨rfl, rfl, rfl, rfl, rfl, rfl⟩

/-- C4: for every `fc`, `fs`, `q` in the valid range (`0 < fc < fs/2`,
`q > 0`), the coefficients produced by `BiQuad::SetFc(fc, fs, q)` satisfy
the unity-DC-gain identity `a0 + a1 + a2 = 1 + b1 + b2` in exact real
arithmetic. -/
theorem biquad_dc_gain (s : BiQuad) (fc fs q : ℝ)
    (hfc : 0 < fc) (hnyq : fc < fs / 2) (hq : 0 < q) :
    (s.setFc3 fc fs q).a0 + (s.setFc3 fc fs q).a1 + (s.setFc3 fc fs q).a2 =
      1 + (s.setFc3 fc fs q).b1 + (s.setFc3 fc fs q).b2 := by
  have hfs : 0 < fs := by linarith
  have hang0 : 0 < Real.pi * fc / fs := div_pos (mul_pos Real.pi_pos hfc) hfs
  have hang1 : Real.pi * fc / fs < Real.pi / 2 := by
    rw [div_lt_div_iff₀ hfs two_pos]
    nlinarith [Real.pi_pos]
  have hk : 0 < biquadK fc fs :=
    Real.tan_pos_of_pos_of_lt_pi_div_two hang0 hang1
  have hden : 0 < biquadDenom fc fs q := by
    have h1 : 0 < biquadK fc fs * biquadK fc fs := mul_pos hk hk
    have h2 : 0 < biquadK fc fs / q := div_pos hk hq
    have := add_pos (add_pos h1 h2) one_pos
    simpa [biquadDenom] using this
  have hdne : biquadDenom fc fs q ≠ 0 := ne_of_gt hden
  have hqne : q ≠ 0 := ne_of_gt hq
  simp only [BiQuad.setFc3, biquadDenom] at *
  field_simp
  ring

/-- Witness for C4 at `fc = 1`, `fs = 4`, `q = 1`. -/
theorem biquad_dc_gain_witness :
    (0 : ℝ) < 1 ∧ (1 : ℝ) < 4 / 2 ∧
    (BiQuad.bare.setFc3 1 4 1).a0 + (BiQuad.bare.setFc3 1 4 1).a1 +
        (BiQuad.bare.setFc3 1 4 1).a2 =
      1 + (BiQuad.bare.setFc3 1 4 1).b1 + (BiQuad.bare.setFc3 1 4 1).b2 :=
  ⟨by norm_num, by norm_num,
    biquad_dc_gain BiQuad.bare 1 4 1 (by norm_num) (by norm_num) (by norm_num)⟩

/-- C6: after `Filter::SetValue(v)` (used unchanged by `OnePole`),
`GetValue()` returns `v` and only the single retained output changes;
after `BiQuad::SetValue(v)`, `GetValue()` returns `v` and also both
history outputs `y1, y2` and both history inputs `x1, x2` equal `v`, so
the very next `Process` call behaves as if all prior history equaled
`v`. -/
theorem setValue_spec (p : OnePole) (s : BiQuad) (v x : ℝ) :
    (p.setValue v).getValue = v ∧
    (p.setValue v).a0 = p.a0 ∧
    (p.setValue v).b1 = p.b1 ∧
    (s.setValue v).getValue = v ∧
    (s.setValue v).y1 = v ∧
    (s.setValue v).y2 = v ∧
    (s.setValue v).x1 = v ∧
    (s.setValue v).x2 = v ∧
    ((s.setValue v).process x).y0 =
      s.a0 * x + s.a1 * v + s.a2 * v - s.b1 * v - s.b2 * v :=
  ⟨rfl, rfl, rfl, rfl, rfl, rfl, rfl, rfl, rfl⟩

/-- C8: configuring a biquad with the default Q — via the constructor
`BiQuad(fc, fs)`, via the two-argument `SetFc(fc, fs)`, or via the
spec-level `BiQuad(fc, fs, 0.5)` — yields coefficients identical to those
produced by `SetFc(fc, fs, 0.5)` on any state. -/
theorem biquad_default_q (fc fs : ℝ) (s : BiQuad) :
    (BiQuad.mk2 fc fs).coeffs = (s.setFc3 fc fs 0.5).coeffs ∧
    (BiQuad.mk3 fc fs 0.5).coeffs = (s.setFc3 fc fs 0.5).coeffs ∧
    (s.setFc2 fc fs).coeffs = (s.setFc3 fc fs 0.5).coeffs :=
  ⟨rfl, rfl, rfl⟩

/-- C9 counterexample: in the bare-constructed state — where the spec puts
every coefficient at its zero default — `b0` is `0`, not `1`, so the
invariant `b0 = 1` does not hold in every reachable state. -/
theorem biquad_b0_bare_ne_one : ¬ BiQuad.bare.b0 = 1 := by
  norm_num [BiQuad.bare]

/-- C9 (amended): `b0 = 1` holds after every `SetFc` call and is preserved
by `SetValue` and `Process`, i.e. in every state reached after at least
one `SetFc`; after bare construction `b0` is at its zero default, not
`1`. -/
theorem biquad_b0_invariant (s : BiQuad) (fc fs q v x : ℝ) :
    (s.setFc3 fc fs q).b0 = 1 ∧
    (s.setFc2 fc fs).b0 = 1 ∧
    (s.setValue v).b0 = s.b0 ∧
    (s.process x).b0 = s.b0 ∧
    BiQuad.bare.b0 = 0 :=
  ⟨rfl, rfl, rfl, rfl, rfl⟩

/-- C10: each mutator touches only its own part of the filter state: for
`OnePole` and `BiQuad`, `SetFc` changes only the coefficients and leaves
the retained output (and, for `BiQuad`, the `x1/x2/y1/y2` history)
unchanged, while `SetValue` and `Process` change only the retained
output/history and leave every coefficient unchanged. -/
theorem mutator_frame (p : OnePole) (s : BiQuad) (fc fs q v x : ℝ) :
    (p.setFc fc fs).y0 = p.y0 ∧
    (p.setValue v).a0 = p.a0 ∧ (p.setValue v).b1 = p.b1 ∧
    (p.process x).a0 = p.a0 ∧ (p.process x).b1 = p.b1 ∧
    (s.setFc3 fc fs q).y0 = s.y0 ∧
    (s.setFc3 fc fs q).x1 = s.x1 ∧ (s.setFc3 fc fs q).x2 = s.x2 ∧
    (s.setFc3 fc fs q).y1 = s.y1 ∧ (s.setFc3 fc fs q).y2 = s.y2 ∧
    (s.setFc2 fc fs).y0 = s.y0 ∧
    (s.setFc2 fc fs).x1 = s.x1 ∧ (s.setFc2 fc fs).x2 = s.x2 ∧
    (s.setFc2 fc fs).y1 = s.y1 ∧ (s.setFc2 fc fs).y2 = s.y2 ∧
    (s.setValue v).coeffs = s.coeffs ∧
    (s.process x).coeffs = s.coeffs :=
  ⟨rfl, rfl, rfl, rfl, rfl, rfl, rfl, rfl, rfl, rfl, rfl, rfl, rfl, rfl,
    rfl, rfl, rfl⟩

/-- C5: `OnePoleQuaternion::Process(x)` sets and returns
`Slerp(a0, previous output, x)`, and — assuming the collaborator `Slerp`
returns a unit-norm orientation on unit-norm arguments — the retained
output stays unit-norm after every `Process` call, for any unit-norm
inputs and any unit-norm previous state, the default-constructed state
being the identity orientation, which is unit-norm. -/
theorem onePoleQuaternion_process_unit
    (slerp : ℝ → Quaterniond → Quaterniond → Quaterniond)
    (hslerp : ∀ (t : ℝ) (a b : Quaterniond),
      a.IsUnit → b.IsUnit → (slerp t a b).IsUnit) :
    (∀ (s : OnePoleQuaternion) (x : Quaterniond),
      (OnePoleQuaternion.process slerp s x).y0 = slerp s.a0 s.y0 x) ∧
    OnePoleQuaternion.mk0.y0 = ⟨1, 0, 0, 0⟩ ∧
    OnePoleQuaternion.mk0.y0.IsUnit ∧
    (∀ (s : OnePoleQuaternion) (xs : List Quaterniond),
      s.y0.IsUnit → (∀ q ∈ xs, q.IsUnit) →
      (xs.foldl (OnePoleQuaternion.process slerp) s).y0.IsUnit) := by
  refine ⟨fun s x => rfl, rfl, ?_, ?_⟩
  · norm_num [OnePoleQuaternion.mk0, Quaterniond.IsUnit, Quaterniond.normSq]
  · intro s xs
    induction xs generalizing s with
    | nil => exact fun hs _ => hs
    | cons a l ih =>
      intro hs hxs
      refine ih _ ?_ ?_
      · exact hslerp s.a0 s.y0 a hs (hxs a (List.mem_cons_self a l))
      · exact fun q hq => hxs q (List.mem_cons_of_mem a hq)

/-- Witness for C5: the degenerate collaborator that returns its unit
target, applied to the default-constructed filter and one unit input. -/
theorem onePoleQuaternion_process_unit_witness :
    (List.foldl (OnePoleQuaternion.process fun _ _ b => b)
      OnePoleQuaternion.mk0
      [(⟨0, 1, 0, 0⟩ : Quaterniond)]).y0.IsUnit :=
  (onePoleQuaternion_process_unit (fun _ _ b => b)
      (fun _ _ _ _ hb => hb)).2.2.2
    OnePoleQuaternion.mk0 [(⟨0, 1, 0, 0⟩ : Quaterniond)]
    (by norm_num [OnePoleQuaternion.mk0, Quaterniond.IsUnit,
      Quaterniond.normSq])
    (by
      intro q hq
      rw [List.mem_singleton] at hq
      subst hq
      norm_num [Quaterniond.IsUnit, Quaterniond.normSq])

theorem stepFilter_a0 :
    stepFilter.a0 = 1 - Real.exp (-2 * Real.pi * 10 / 1000) :=
  rfl

theorem stepFilter_b1 :
    stepFilter.b1 = Real.exp (-2 * Real.pi * 10 / 1000) :=
  rfl

theorem stepState_coeffs (n : ℕ) :
    (stepState n).a0 = stepFilter.a0 ∧ (stepState n).b1 = stepFilter.b1 := by
  induction n with
  | zero => exact ⟨rfl, rfl⟩
  | succ n ih => exact ih

theorem stepSeq_closed (n : ℕ) :
    stepSeq n = 1 - Real.exp (-2 * Real.pi * 10 / 1000) ^ n := by
  induction n with
  | zero =>
    show (OnePole.zeroState.setFc 10 1000).y0 = _
    norm_num [OnePole.setFc, OnePole.zeroState]
  | succ n ih =>
    have hc := stepState_coeffs n
    show ((stepState n).process 1).y0 = _
    rw [OnePole.process]
    show (stepState n).a0 * 1 + (stepState n).b1 * stepSeq n = _
    rw [hc.1, hc.2, ih, stepFilter_a0, stepFilter_b1]
    ring

theorem stepB_pos : 0 < Real.exp (-2 * Real.pi * 10 / 1000) :=
  Real.exp_pos _

theorem stepB_lt_one : Real.exp (-2 * Real.pi * 10 / 1000) < 1 := by
  rw [Real.exp_lt_one_iff]
  nlinarith [Real.pi_pos]

/-- C7: for a scalar `OnePole` configured with `SetFc(10, 1000)` and state
initialized to 0, repeatedly calling `Process(1)` yields, in exact real
arithmetic, a strictly increasing sequence of outputs that never exceeds 1
and converges toward 1, and the first output equals
`gainIn = 1 - exp(-2π*10/1000)`. -/
theorem onePole_step_response :
    stepSeq 1 = stepFilter.a0 ∧
    stepFilter.a0 = 1 - Real.exp (-2 * Real.pi * 10 / 1000) ∧
    StrictMono stepSeq ∧
    (∀ n, stepSeq n < 1) ∧
    Filter.Tendsto stepSeq Filter.atTop (nhds 1) := by
  have hlt : ∀ n : ℕ,
      Real.exp (-2 * Real.pi * 10 / 1000) ^ (n + 1) <
        Real.exp (-2 * Real.pi * 10 / 1000) ^ n := by
    intro n
    rw [pow_succ]
    exact mul_lt_of_lt_one_right (pow_pos stepB_pos n) stepB_lt_one
  refine ⟨?_, rfl, ?_, ?_, ?_⟩
  · rw [stepSeq_closed, stepFilter_a0, pow_one]
  · refine strictMono_nat_of_lt_succ fun n => ?_
    rw [stepSeq_closed, stepSeq_closed]
    have := hlt n
    linarith
  · intro n
    rw [stepSeq_closed]
    have := pow_pos stepB_pos n
    linarith
  · have h0 : Filter.Tendsto
        (fun n : ℕ => Real.exp (-2 * Real.pi * 10 / 1000) ^ n)
        Filter.atTop (nhds 0) :=
      tendsto_pow_atTop_nhds_zero_of_lt_one stepB_pos.le stepB_lt_one
    have h1 := h0.const_sub (1 : ℝ)
    rw [sub_zero] at h1
    exact h1.congr fun n => (stepSeq_closed n).symm

end IgnMath
